import Mathlib

/-!
Verification of the netscape compression pipeline
(`src/data_models.py`, `src/1.compress_given_z.py`, `src/config.py`)
against its natural-language specification.

Conventions of the embedding:

* Gene-expression dataframes (pandas `DataFrame`) are modelled by `Df`:
  a row-label list, a column-label list and a row-major matrix of real
  numbers.  Floating-point arithmetic is modelled by real arithmetic.
* External library calls (sklearn scalers and decompositions, scipy
  `zscore`, sklearn `ridge_regression`, the numpy legacy random
  generator) are modelled from their documented behaviour; opaque
  numeric outputs of the external decomposition engines are passed in
  as explicit arguments so that no theorem depends on their values.
* The external prior-informed factorization script
  (`scripts/run_plier.R`) is part of the repository but is not under
  `src/`; its behaviour is modelled from the spec where indicated.
* Python exceptions are modelled with `Except`: an uncaught exception
  is an `Except.error` value that propagates through the monadic bind,
  exactly as an exception propagates out of the per-seed loop.
-/

/-! ## Basic list and matrix helpers -/

abbrev Mat : Type := List (List ℝ)

/-- Number of columns of a row-major matrix (length of the first row;
`0` for the empty matrix, matching the degenerate numpy cases we use). -/
def ncolsM (m : Mat) : Nat := (m.headD []).length

/-- Shape `(rows, cols)` of a row-major matrix. -/
def shapeM (m : Mat) : Nat × Nat := (m.length, ncolsM m)

/-- Column `j` of a row-major matrix. -/
def columnM (m : Mat) (j : Nat) : List ℝ := m.map (fun r => r.getD j 0)

/-- Transpose of a row-major matrix (used for the pandas `.T` and
numpy `.T` operations; total on rectangular matrices). -/
def transposeM (m : Mat) : Mat :=
  (List.range (ncolsM m)).map (fun j => m.map (fun r => r.getD j 0))

/-- Arithmetic mean of a list of reals (`np.mean` of a vector). -/
noncomputable def meanL (l : List ℝ) : ℝ := l.sum / l.length

/-- Population variance of a list of reals (`ddof = 0`, the default of
sklearn `StandardScaler` and scipy `zscore`). -/
noncomputable def popVar (l : List ℝ) : ℝ :=
  meanL (l.map (fun x => (x - meanL l) ^ 2))

/-- Minimum entry of a list (first entry as the start value). -/
noncomputable def listMin : List ℝ → ℝ
  | [] => 0
  | x :: xs => xs.foldl min x

/-- Maximum entry of a list (first entry as the start value). -/
noncomputable def listMax : List ℝ → ℝ
  | [] => 0
  | x :: xs => xs.foldl max x

/-! ## Dataframes -/

/-- A pandas `DataFrame` of gene-expression data: row labels
(sample ids), column labels (gene ids) and a row-major value matrix. -/
structure Df where
  index : List String
  cols : List String
  data : Mat

/-- Label-based shape of a dataframe, as pandas `df.shape` reports it. -/
def dfShape (d : Df) : Nat × Nat := (d.index.length, d.cols.length)

/-- Structural well-formedness: the value matrix agrees with the labels. -/
def dfWF (d : Df) : Prop :=
  d.data.length = d.index.length ∧ ∀ r ∈ d.data, r.length = d.cols.length

/-- The pandas `DataFrame(data, index=..., columns=...)` constructor:
it validates that the data block matches the labels and raises
otherwise. -/
def mkDf (data : Mat) (index cols : List String) : Except String Df :=
  if data.length = index.length ∧ ∀ r ∈ data, r.length = cols.length then
    .ok ⟨index, cols, data⟩
  else
    .error ("Shape of passed values does not match indices")

/-- The pandas `.T` of a dataframe: labels swap, values transpose. -/
def dfTranspose (d : Df) : Df := ⟨d.cols, d.index, transposeM d.data⟩

/-! ## Scalers (sklearn `StandardScaler` / `MinMaxScaler`)

Modelled from the sklearn contract.  Both scalers are per-feature
(per-column) affine maps `x ↦ (x - shift_j) / scale_j`; a zero scale
denominator is replaced by `1` (sklearn `_handle_zeros_in_scale`). -/

structure ScalerParams where
  shift : List ℝ
  scale : List ℝ

/-- sklearn `_handle_zeros_in_scale`: a zero denominator becomes `1`. -/
noncomputable def handleZeros (s : ℝ) : ℝ := if s = 0 then 1 else s

/-- All columns of a dataframe value matrix, in column order. -/
def dfColumns (d : Df) : List (List ℝ) :=
  (List.range d.cols.length).map (fun j => columnM d.data j)

/-- The sklearn `StandardScaler().fit(d)`: per-column mean and (population)
standard deviation. -/
noncomputable def standardScalerFit (d : Df) : ScalerParams :=
  ⟨(dfColumns d).map meanL,
   (dfColumns d).map (fun c => handleZeros (Real.sqrt (popVar c)))⟩

/-- The sklearn `MinMaxScaler().fit(d)` with the default feature range `(0, 1)`:
per-column minimum and range. -/
noncomputable def minMaxScalerFit (d : Df) : ScalerParams :=
  ⟨(dfColumns d).map listMin,
   (dfColumns d).map (fun c => handleZeros (listMax c - listMin c))⟩

/-- The sklearn `scaler.transform(d)`: apply the fitted per-column affine map.
The sources wrap the transformed block back into a dataframe with the
original labels. -/
noncomputable def scalerTransform (p : ScalerParams) (d : Df) : Df :=
  ⟨d.index, d.cols,
   d.data.map (fun r =>
     (r.zip (p.shift.zip p.scale)).map (fun q => (q.1 - q.2.1) / q.2.2))⟩

/-! ## `DataModel.transform` (src/data_models.py, lines 72-94) -/

/-- Dispatch on the normalization method name, exactly as the
`if how == "zscore" / elif how == "zeroone"` chain does; `none` is the
`raise ValueError` branch. -/
noncomputable def fitScalerFor (how : String) (d : Df) : Option ScalerParams :=
  if how = "zscore" then some (standardScalerFit d)
  else if how = "zeroone" then some (minMaxScalerFit d)
  else none

inductive DmError
  | invalidMethod
  | geneCountMismatch
  deriving DecidableEq

/-- The fields `DataModel.transform` assigns on `self`. -/
structure TransformResult where
  transformation : String
  transform_fit : ScalerParams
  df : Df
  transform_test_fit : Option ScalerParams
  test_df : Option Df

/-- The method `DataModel.transform(how)`.  Note the source fits a second scaler
`transform_test_fit` on the test dataframe itself and transforms the
test data with that second fit.  The inner method dispatch for the
test fit has no `else` branch in the source; it is unreachable there
because an unknown `how` has already raised, and the model mirrors
that with an unreachable error branch. -/
noncomputable def DataModel.transform (df : Df) (test_df : Option Df)
    (how : String) : Except DmError TransformResult :=
  match fitScalerFor how df with
  | none => .error .invalidMethod
  | some transform_fit =>
    let df2 := scalerTransform transform_fit df
    match test_df with
    | none => .ok ⟨how, transform_fit, df2, none, none⟩
    | some t =>
      match fitScalerFor how t with
      | none => .error .invalidMethod
      | some transform_test_fit =>
        .ok ⟨how, transform_fit, df2, some transform_test_fit,
             some (scalerTransform transform_test_fit t)⟩

theorem fitScalerFor_isSome_congr (how : String) (d1 d2 : Df) :
    (fitScalerFor how d1).isSome = (fitScalerFor how d2).isSome := by
  unfold fitScalerFor
  by_cases h1 : how = "zscore" <;> by_cases h2 : how = "zeroone" <;>
    simp [h1, h2]

/-! ## Claim C1: normalization fit parameters -/

/-- Concrete train matrix for the C1 counterexample: one gene, two
samples, values 0 and 2 (column minimum 0, range 2). -/
def trainC1 : Df := ⟨["s1", "s2"], ["g0"], [[0], [2]]⟩

/-- Concrete test matrix for the C1 counterexample: one gene, two
samples, values 0 and 4 (column minimum 0, range 4). -/
def testC1 : Df := ⟨["t1", "t2"], ["g0"], [[0], [4]]⟩

/-- C1, counterexample: with the `zeroone` method, the normalized test
matrix produced by `DataModel.transform` is NOT the train-fitted
parameters applied to the test matrix: the code rescales the test
value 4 to 1 using the test-fitted range 4, while the train-fitted
range 2 would rescale it to 2. -/
theorem C1_counterexample :
    (DataModel.transform trainC1 (some testC1) ("zeroone")).map
        (fun dm => dm.test_df)
      ≠ Except.ok (some (scalerTransform (minMaxScalerFit trainC1) testC1)) := by
  intro h
  simp [DataModel.transform, fitScalerFor, Except.map] at h
  have hd := congrArg Df.data h
  simp [scalerTransform, minMaxScalerFit, trainC1, testC1, dfColumns,
        columnM, listMin, listMax, handleZeros, List.foldl, Function.comp,
        List.range_succ] at hd
  norm_num [min_def, max_def] at hd

/-- C1 (amended): the fitted normalization parameters
`transform_fit` depend only on the training matrix — swapping the
test matrix for any other matrix does not change them — but the
normalized test matrix is computed by applying a second scaler
refit on the test matrix itself (`transform_test_fit`), not the
train-fitted parameters. -/
theorem C1_fit_params_from_train_only :
    ∀ (train t1 t2 : Df) (how : String),
      (DataModel.transform train (some t1) how).map (fun r => r.transform_fit)
        = (DataModel.transform train (some t2) how).map (fun r => r.transform_fit)
      ∧ (∀ dm, DataModel.transform train (some t1) how = .ok dm →
          fitScalerFor how train = some dm.transform_fit
          ∧ dm.transform_test_fit = fitScalerFor how t1
          ∧ dm.test_df = (fitScalerFor how t1).map (fun f => scalerTransform f t1)) := by
  intro train t1 t2 how
  have hcong12 := fitScalerFor_isSome_congr how t1 t2
  constructor
  · cases hf : fitScalerFor how train with
    | none => simp [DataModel.transform, hf]
    | some p =>
      cases hg1 : fitScalerFor how t1 with
      | none =>
        cases hg2 : fitScalerFor how t2 with
        | none => simp [DataModel.transform, hf, hg1, hg2]
        | some q2 => rw [hg1, hg2] at hcong12; simp at hcong12
      | some q1 =>
        cases hg2 : fitScalerFor how t2 with
        | none => rw [hg1, hg2] at hcong12; simp at hcong12
        | some q2 => simp [DataModel.transform, hf, hg1, hg2, Except.map]
  · intro dm hok
    cases hf : fitScalerFor how train with
    | none => simp [DataModel.transform, hf] at hok
    | some p =>
      cases hg1 : fitScalerFor how t1 with
      | none => simp [DataModel.transform, hf, hg1] at hok
      | some q1 =>
        simp [DataModel.transform, hf, hg1] at hok
        subst hok
        simp

/-- The transform result the code computes on the concrete C1 pair. -/
noncomputable def c1dm : TransformResult :=
  ((DataModel.transform trainC1 (some testC1) ("zeroone")).toOption).getD
    ⟨"", ⟨[], []⟩, ⟨[], [], []⟩, none, none⟩

/-- Witness for `C1_fit_params_from_train_only` at a concrete input. -/
theorem C1_fit_params_witness :
    fitScalerFor ("zeroone") trainC1 = some c1dm.transform_fit
    ∧ c1dm.transform_test_fit = fitScalerFor ("zeroone") testC1
    ∧ c1dm.test_df
        = (fitScalerFor ("zeroone") testC1).map (fun f => scalerTransform f testC1) :=
  (C1_fit_params_from_train_only trainC1 testC1 testC1 ("zeroone")).2 c1dm (by rfl)

/-! ## Claim C4: `DataModel.__init__` (src/data_models.py, lines 25-69)

The constructor is modelled in the configuration the claims exercise
(`select_columns` and `gene_modules` are not used by the ensemble
driver).  A filename argument is modelled by the dataframe that
`pd.read_table` would load from that file. -/

/-- The fields `DataModel.__init__` assigns on `self`. -/
structure InitResult where
  df : Df
  num_samples : Nat
  num_genes : Nat
  test_df : Option Df
  num_test : Option (Nat × Nat)

/-- The constructor `DataModel.__init__`: the train dataframe is loaded (from file or
given directly); the test dataframe is stored as given; only when the
test set comes from `test_filename` with no preloaded `test_df` does
the constructor compare shapes, and the `assert` compares only the
GENE COUNTS (`self.num_genes == self.num_test_genes`), never the gene
identifier sets. -/
def DataModel.init (df : Df) (test_filename : Option Df)
    (test_df : Option Df) : Except DmError InitResult :=
  let num_samples := df.index.length
  let num_genes := df.cols.length
  match test_filename, test_df with
  | some tf, none =>
    -- self.test_df = pd.read_table(self.test_filename); shape check
    if num_genes = tf.cols.length then
      .ok ⟨df, num_samples, num_genes, some tf,
           some (tf.index.length, tf.cols.length)⟩
    else
      .error .geneCountMismatch
  | _, _ => .ok ⟨df, num_samples, num_genes, test_df, none⟩

/-- Concrete train matrix for the C4 counterexample. -/
def dfC4 : Df := ⟨["s1"], ["g1", "g2"], [[1, 2]]⟩

/-- Concrete test matrix for the C4 counterexample: two genes as well,
but with a completely different gene-identifier set. -/
def testC4 : Df := ⟨["t1"], ["h1", "h2"], [[3, 4]]⟩

/-- C4, counterexample: construction succeeds on a (train, test) pair
whose gene-ID sets are disjoint — via the filename path the `assert`
only compares gene counts, and via the preloaded-dataframe path no
check runs at all — refuting both halves of the claim. -/
theorem C4_counterexample :
    (DataModel.init dfC4 (some testC4) none).isOk = true
    ∧ (DataModel.init dfC4 none (some testC4)).isOk = true
    ∧ dfC4.cols ≠ testC4.cols := by
  refine ⟨by rfl, by rfl, ?_⟩
  decide

/-- C4 (amended): the constructor checks only in the
filename-without-preloaded-dataframe case, and succeeds there exactly
when the two matrices have the same NUMBER of genes (gene-ID sets are
never compared); with a preloaded test dataframe construction always
succeeds without any check. -/
theorem C4_constructor_checks_gene_counts_only :
    ∀ (df tf t : Df),
      (DataModel.init df (some tf) none).isOk
        = (df.cols.length == tf.cols.length)
      ∧ (DataModel.init df none (some t)).isOk = true := by
  intro df tf t
  constructor
  · by_cases h : df.cols.length = tf.cols.length
    · simp [DataModel.init, h, Except.isOk, Except.toBool]
    · simp [DataModel.init, h, Except.isOk, Except.toBool]
  · rfl

/-! ## Claims C6 and C9: the reconstruction score
(`DataModel._approx_keras_binary_cross_entropy`,
src/data_models.py, lines 393-435) -/

/-- The first masked assignment of the source:
`x[x < epsilon] = epsilon`. -/
noncomputable def clipLow (eps v : ℝ) : ℝ := if v < eps then eps else v

/-- The element-wise clipping performed by the source: the masked
assignment `x[x < epsilon] = epsilon` followed by
`x[x > (1 - epsilon)] = (1 - epsilon)`, in that order. -/
noncomputable def clipSeq (eps v : ℝ) : ℝ :=
  if clipLow eps v > 1 - eps then 1 - eps else clipLow eps v

/-- The logit transform `np.log(x / (1 - x))`. -/
noncomputable def logitR (v : ℝ) : ℝ := Real.log (v / (1 - v))

/-- The method `DataModel._approx_keras_binary_cross_entropy(x, z, p, epsilon)`
(the leading underscore of the source name is dropped): clip the
reconstruction element-wise, replace it by its logit, then return
`np.mean(p * np.mean(- x * z + np.log(1 + np.exp(x)), axis=-1))` —
the inner mean runs over features (the last axis), the outer one over
samples. -/
noncomputable def DataModel.approx_keras_binary_cross_entropy
    (x z : Mat) (p eps : ℝ) : ℝ :=
  meanL (((x.map (fun r => r.map (fun v => logitR (clipSeq eps v)))).zip z).map
    (fun rz =>
      p * meanL ((rz.1.zip rz.2).map (fun vz =>
        -vz.1 * vz.2 + Real.log (1 + Real.exp vz.1)))))

/-- Stated from the spec (section 4.4), for the refinement claim C6:
clip the reconstructed matrix element-wise into the closed interval
`[eps, 1 - eps]`, apply the logit transform, then compute the mean
over samples of `num_features * mean_over_features(-logit * original
+ log(1 + exp(logit)))`. -/
noncomputable def scoreSpec (x z : Mat) (p eps : ℝ) : ℝ :=
  meanL ((x.zip z).map (fun rz =>
    p * meanL ((rz.1.zip rz.2).map (fun vz =>
      -(logitR (max eps (min (1 - eps) vz.1))) * vz.2
        + Real.log (1 + Real.exp (logitR (max eps (min (1 - eps) vz.1))))))))

theorem clipSeq_eq_clamp (eps v : ℝ) (h0 : 0 < eps) (h12 : eps < 1 / 2) :
    clipSeq eps v = max eps (min (1 - eps) v) := by
  unfold clipSeq clipLow
  by_cases h1 : v < eps
  · rw [if_pos h1, if_neg (not_lt.mpr (by linarith : eps ≤ 1 - eps)),
        min_eq_right (by linarith : v ≤ 1 - eps),
        max_eq_left (by linarith : v ≤ eps)]
  · push_neg at h1
    rw [if_neg (not_lt.mpr h1)]
    by_cases h2 : v > 1 - eps
    · rw [if_pos h2, min_eq_left (le_of_lt h2),
          max_eq_right (by linarith : eps ≤ 1 - eps)]
    · push_neg at h2
      rw [if_neg (not_lt.mpr h2), min_eq_right h2, max_eq_right h1]

theorem clipSeq_id (eps v : ℝ) (hlo : eps < v) (hhi : v < 1 - eps) :
    clipSeq eps v = v := by
  unfold clipSeq clipLow
  rw [if_neg (not_lt.mpr (le_of_lt hlo)), if_neg (not_lt.mpr (le_of_lt hhi))]

/-- C6 (confirmed): for every clipping bound `eps` in `(0, 1/2)` the
reconstruction score computed by the source equals the formula stated
in the spec: clip into `[eps, 1-eps]`, logit, then the mean over
samples of `p` times the feature mean of
`-logit * original + log(1 + exp(logit))`. -/
theorem C6_reconstruction_score_formula (x z : Mat) (p eps : ℝ)
    (h0 : 0 < eps) (h12 : eps < 1 / 2) :
    DataModel.approx_keras_binary_cross_entropy x z p eps
      = scoreSpec x z p eps := by
  unfold DataModel.approx_keras_binary_cross_entropy scoreSpec
  rw [List.zip_map_left, List.map_map]
  congr 1
  apply List.map_congr_left
  intro rz _
  simp only [Function.comp, Prod.map, id]
  congr 1
  rw [List.zip_map_left, List.map_map]
  congr 1
  apply List.map_congr_left
  intro vz _
  simp only [Function.comp, Prod.map, id]
  rw [clipSeq_eq_clamp eps _ h0 h12]

/-- Witness for `C6_reconstruction_score_formula` at a concrete input. -/
theorem C6_reconstruction_score_formula_witness :
    DataModel.approx_keras_binary_cross_entropy [[1]] [[0]] 1 (1 / 4)
      = scoreSpec [[1]] [[0]] 1 (1 / 4) :=
  C6_reconstruction_score_formula [[1]] [[0]] 1 (1 / 4)
    (by norm_num) (by norm_num)

/-- C9 (confirmed): for inputs strictly inside both clipping
intervals, the reconstruction score does not depend on which epsilon
in `(0, 1/2)` is used: the clipping is the identity there. -/
theorem C9_score_epsilon_invariant (x z : Mat) (p eps1 eps2 : ℝ)
    (h10 : 0 < eps1) (h112 : eps1 < 1 / 2)
    (h20 : 0 < eps2) (h212 : eps2 < 1 / 2)
    (hin1 : ∀ r ∈ x, ∀ v ∈ r, eps1 < v ∧ v < 1 - eps1)
    (hin2 : ∀ r ∈ x, ∀ v ∈ r, eps2 < v ∧ v < 1 - eps2) :
    DataModel.approx_keras_binary_cross_entropy x z p eps1
      = DataModel.approx_keras_binary_cross_entropy x z p eps2 := by
  unfold DataModel.approx_keras_binary_cross_entropy
  have hx : x.map (fun r => r.map (fun v => logitR (clipSeq eps1 v)))
      = x.map (fun r => r.map (fun v => logitR (clipSeq eps2 v))) := by
    apply List.map_congr_left
    intro r hr
    apply List.map_congr_left
    intro v hv
    rw [clipSeq_id eps1 v (hin1 r hr v hv).1 (hin1 r hr v hv).2,
        clipSeq_id eps2 v (hin2 r hr v hv).1 (hin2 r hr v hv).2]
  rw [hx]

/-- Witness for `C9_score_epsilon_invariant` at a concrete input. -/
theorem C9_score_epsilon_invariant_witness :
    DataModel.approx_keras_binary_cross_entropy [[1 / 2]] [[3]] 2 (1 / 4)
      = DataModel.approx_keras_binary_cross_entropy [[1 / 2]] [[3]] 2 (1 / 8) :=
  C9_score_epsilon_invariant [[1 / 2]] [[3]] 2 (1 / 4) (1 / 8)
    (by norm_num) (by norm_num) (by norm_num) (by norm_num)
    (by intro r hr v hv
        simp only [List.mem_singleton] at hr
        subst hr
        simp only [List.mem_singleton] at hv
        subst hv
        norm_num)
    (by intro r hr v hv
        simp only [List.mem_singleton] at hr
        subst hr
        simp only [List.mem_singleton] at hv
        subst hv
        norm_num)

/-! ## The sklearn-based variants (src/data_models.py, lines 102-156)

The decomposition engines themselves are external; their numeric
outputs (`fit_transform` result and `components_`) are passed in as
explicit matrix arguments, and the adapter code that wraps them into
labelled dataframes is translated from the source. -/

structure SklearnFitRes where
  embedding : Df
  weights : Df

/-- The method `DataModel.pca(n_components)`: wrap the engine outputs.
`pca_df = DataFrame(fit_transform_out, index=df.index, columns=colnames)`,
`pca_weights = DataFrame(components_, columns=df.columns, index=colnames)`. -/
def DataModel.pca (df : Df) (n_components : Nat)
    (fitTransformOut components : Mat) : Except String SklearnFitRes :=
  let colnames := (List.range n_components).map (fun x => "pca_" ++ toString x)
  match mkDf fitTransformOut df.index colnames with
  | .error e => .error e
  | .ok pca_df =>
    match mkDf components colnames df.cols with
    | .error e => .error e
    | .ok pca_weights => .ok ⟨pca_df, pca_weights⟩

/-- The method `DataModel.ica(n_components)`: identical wrapping with `ica_`
column names. -/
def DataModel.ica (df : Df) (n_components : Nat)
    (fitTransformOut components : Mat) : Except String SklearnFitRes :=
  let colnames := (List.range n_components).map (fun x => "ica_" ++ toString x)
  match mkDf fitTransformOut df.index colnames with
  | .error e => .error e
  | .ok ica_df =>
    match mkDf components colnames df.cols with
    | .error e => .error e
    | .ok ica_weights => .ok ⟨ica_df, ica_weights⟩

/-- The method `DataModel.nmf(n_components)`: identical wrapping with `nmf_`
column names. -/
def DataModel.nmf (df : Df) (n_components : Nat)
    (fitTransformOut components : Mat) : Except String SklearnFitRes :=
  let colnames := (List.range n_components).map (fun x => "nmf_" ++ toString x)
  match mkDf fitTransformOut df.index colnames with
  | .error e => .error e
  | .ok nmf_df =>
    match mkDf components colnames df.cols with
    | .error e => .error e
    | .ok nmf_weights => .ok ⟨nmf_df, nmf_weights⟩

theorem mkDf_ok_eq {data : Mat} {index cols : List String} {d : Df}
    (h : mkDf data index cols = .ok d) : d = ⟨index, cols, data⟩ := by
  unfold mkDf at h
  split at h
  · injection h with h
    exact h.symm
  · cases h

/-! ## The pathway-regularized variant
(`DataModel.plier`, src/data_models.py, lines 158-240, and
`DataModel._plier_on_test_data`, lines 354-390) -/

inductive PlierError
  | emptyGeneOverlap
  | missingTestGenes
  deriving DecidableEq

/-- The three on-disk outputs of the external factorization:
`z` (genes × components, the weights file), `b` (components × samples,
the embedding file) and the scalar regularization value. -/
structure PlierOut where
  z : Df
  b : Df
  l2 : ℝ

/-- The GeneSubset of the spec: the intersection of the expression
gene set with the prior gene set, in expression order. -/
def geneSubset (exprGenes priorGenes : List String) : List String :=
  exprGenes.filter (fun g => priorGenes.contains g)

/-- Latent-variable labels of the external factorization output. -/
def plierColnames (k : Nat) : List String :=
  (List.range k).map (fun j => "LV" ++ toString j)

/-- Modelled from the spec: the external prior-informed factorization
(`scripts/run_plier.R`, part of the repository but not under `src/`)
receives the expression matrix, the rank, a seed and the prior
gene-set file, and writes three outputs — weights (genes × k),
embedding (k × samples) and a scalar regularization value (spec
section 6); it filters to the intersection of the expression genes
and the prior gene set and fails when that intersection is empty
(spec section 4.3), the caller mapping the non-zero exit status to an
error.  The numeric outputs are opaque; they are supplied by the
argument functions `zVals`/`bVals` and the scalar `l2`. -/
noncomputable def runPlierExternal (exprDf : Df) (priorGenes : List String)
    (k : Nat) (zVals bVals : Nat → Nat → ℝ) (l2 : ℝ) :
    Except PlierError PlierOut :=
  let sub := geneSubset exprDf.cols priorGenes
  if sub.isEmpty then .error .emptyGeneOverlap
  else
    .ok ⟨⟨sub, plierColnames k,
          (List.range sub.length).map (fun i =>
            (List.range k).map (fun j => zVals i j))⟩,
         ⟨plierColnames k, exprDf.index,
          (List.range k).map (fun i =>
            (List.range exprDf.index.length).map (fun j => bVals i j))⟩,
         l2⟩

/-- Dataframe column selection `d[sel]`; a label absent from the
columns raises a pandas `KeyError`. -/
def dfSelect (d : Df) (sel : List String) : Except PlierError Df :=
  if sel.all (fun g => d.cols.contains g) then
    .ok ⟨d.index, sel,
         d.data.map (fun r => sel.map (fun g => r.getD (d.cols.indexOf g) 0))⟩
  else .error .missingTestGenes

/-- The expression `X.apply(zscore)`: scipy column-wise standardization with
`ddof = 0`: every entry is replaced by its distance to the column
mean divided by the column standard deviation.  (numpy turns a
zero-variance column into NaN; real division by zero yields 0 here,
and no claim depends on that case.) -/
noncomputable def dfApplyZscore (d : Df) : Df :=
  ⟨d.index, d.cols,
   d.data.map (fun r => (List.range r.length).map (fun j =>
     (r.getD j 0 - meanL (columnM d.data j))
       / Real.sqrt (popVar (columnM d.data j))))⟩

/-- The method `DataModel._plier_on_test_data(X, weights, lambda_2)` (the
leading underscore of the source name is dropped):
`ridge_regression(weights.T, X.apply(zscore).T, lambda_2)`.  The
sklearn solver is the argument `rr`; its contract is that
`rr A y lam` returns the ridge coefficient matrix, one row per target
column of `y`, one column per feature column of `A`. -/
noncomputable def DataModel.plier_on_test_data (rr : Mat → Mat → ℝ → Mat)
    (X weights : Df) (lambda_2 : ℝ) : Mat :=
  rr (transposeM weights.data) (transposeM (dfApplyZscore X).data) lambda_2

/-- The fields `DataModel.plier` assigns on `self`. -/
structure PlierRes where
  plier_df : Df
  plier_weights : Df
  plier_test_df : Option Mat

/-- The method `DataModel.plier(n_components, pathways_file, ...)`: run the
external factorization (the on-disk cache is elided: the external run
is deterministic in the cache key, so a cache hit returns the same
three outputs the run would), transpose the two output matrices to
the sklearn orientation, restrict the test dataframe to the weight
columns, and optionally project the test data through
`_plier_on_test_data`.  The `transform_df` early-return branch is not
exercised by the ensemble driver and is elided. -/
noncomputable def DataModel.plier (rr : Mat → Mat → ℝ → Mat)
    (df test_df : Df) (priorGenes : List String) (n_components : Nat)
    (zVals bVals : Nat → Nat → ℝ) (l2 : ℝ) (transform_test_df : Bool) :
    Except PlierError PlierRes :=
  match runPlierExternal df priorGenes n_components zVals bVals l2 with
  | .error e => .error e
  | .ok out =>
    let plier_df := dfTranspose out.b
    let plier_weights := dfTranspose out.z
    match dfSelect test_df plier_weights.cols with
    | .error e => .error e
    | .ok test_df_filtered =>
      .ok ⟨plier_df, plier_weights,
           if transform_test_df then
             some (DataModel.plier_on_test_data rr test_df_filtered
                     plier_weights out.l2)
           else none⟩

/-! ## Claim C5: empty gene overlap -/

/-- C5 (confirmed, against the spec-modelled external factorization):
whenever the GeneSubset is empty, the pathway-regularized variant
fails with the empty-overlap error and produces neither an embedding
nor any other output. -/
theorem C5_empty_overlap_fails (rr : Mat → Mat → ℝ → Mat)
    (df test_df : Df) (priorGenes : List String) (k : Nat)
    (zVals bVals : Nat → Nat → ℝ) (l2 : ℝ) (flag : Bool)
    (h : geneSubset df.cols priorGenes = []) :
    DataModel.plier rr df test_df priorGenes k zVals bVals l2 flag
      = .error .emptyGeneOverlap := by
  unfold DataModel.plier runPlierExternal
  simp only [h]
  rfl

/-- A trivial stand-in for the external ridge solver, used by
concrete witnesses only. -/
def rr0 : Mat → Mat → ℝ → Mat := fun _ _ _ => []

/-- Concrete expression matrix whose single gene is absent from the
prior gene set. -/
def dfC5 : Df := ⟨["s1"], ["g1"], [[1]]⟩

/-- Witness for `C5_empty_overlap_fails` at a concrete input. -/
theorem C5_empty_overlap_fails_witness :
    DataModel.plier rr0 dfC5 dfC5 ["h1"] 1 (fun _ _ => 0) (fun _ _ => 0) 0 true
      = .error .emptyGeneOverlap :=
  C5_empty_overlap_fails rr0 dfC5 dfC5 ["h1"] 1 (fun _ _ => 0) (fun _ _ => 0)
    0 true (by rfl)

/-! ## Claim C7: weight-matrix orientation -/

theorem pcaWeightsShape (df : Df) (k : Nat) (emb comps : Mat)
    (res : SklearnFitRes) (h : DataModel.pca df k emb comps = .ok res) :
    dfShape res.weights = (k, df.cols.length) := by
  simp only [DataModel.pca] at h
  cases h1 : mkDf emb df.index ((List.range k).map (fun x => "pca_" ++ toString x)) with
  | error e =>
    simp only [h1] at h
    exact Except.noConfusion h
  | ok d1 =>
    simp only [h1] at h
    cases h2 : mkDf comps ((List.range k).map (fun x => "pca_" ++ toString x)) df.cols with
    | error e =>
      simp only [h2] at h
      exact Except.noConfusion h
    | ok d2 =>
      simp only [h2] at h
      injection h with h
      subst h
      rw [mkDf_ok_eq h2]
      simp [dfShape]

theorem icaWeightsShape (df : Df) (k : Nat) (emb comps : Mat)
    (res : SklearnFitRes) (h : DataModel.ica df k emb comps = .ok res) :
    dfShape res.weights = (k, df.cols.length) := by
  simp only [DataModel.ica] at h
  cases h1 : mkDf emb df.index ((List.range k).map (fun x => "ica_" ++ toString x)) with
  | error e =>
    simp only [h1] at h
    exact Except.noConfusion h
  | ok d1 =>
    simp only [h1] at h
    cases h2 : mkDf comps ((List.range k).map (fun x => "ica_" ++ toString x)) df.cols with
    | error e =>
      simp only [h2] at h
      exact Except.noConfusion h
    | ok d2 =>
      simp only [h2] at h
      injection h with h
      subst h
      rw [mkDf_ok_eq h2]
      simp [dfShape]

theorem nmfWeightsShape (df : Df) (k : Nat) (emb comps : Mat)
    (res : SklearnFitRes) (h : DataModel.nmf df k emb comps = .ok res) :
    dfShape res.weights = (k, df.cols.length) := by
  simp only [DataModel.nmf] at h
  cases h1 : mkDf emb df.index ((List.range k).map (fun x => "nmf_" ++ toString x)) with
  | error e =>
    simp only [h1] at h
    exact Except.noConfusion h
  | ok d1 =>
    simp only [h1] at h
    cases h2 : mkDf comps ((List.range k).map (fun x => "nmf_" ++ toString x)) df.cols with
    | error e =>
      simp only [h2] at h
      exact Except.noConfusion h
    | ok d2 =>
      simp only [h2] at h
      injection h with h
      subst h
      rw [mkDf_ok_eq h2]
      simp [dfShape]

theorem runPlierExternal_ok_z (exprDf : Df) (priorGenes : List String)
    (k : Nat) (zVals bVals : Nat → Nat → ℝ) (l2 : ℝ) (out : PlierOut)
    (h : runPlierExternal exprDf priorGenes k zVals bVals l2 = .ok out) :
    out.z = ⟨geneSubset exprDf.cols priorGenes, plierColnames k,
             (List.range (geneSubset exprDf.cols priorGenes).length).map
               (fun i => (List.range k).map (fun j => zVals i j))⟩ := by
  simp only [runPlierExternal] at h
  split at h
  · exact Except.noConfusion h
  · injection h with h
    rw [← h]

theorem plierWeightsShape (rr : Mat → Mat → ℝ → Mat) (df test_df : Df)
    (priorGenes : List String) (k : Nat) (zVals bVals : Nat → Nat → ℝ)
    (l2 : ℝ) (flag : Bool) (res : PlierRes)
    (h : DataModel.plier rr df test_df priorGenes k zVals bVals l2 flag
          = .ok res) :
    dfShape res.plier_weights
      = (k, (geneSubset df.cols priorGenes).length) := by
  simp only [DataModel.plier] at h
  cases hout : runPlierExternal df priorGenes k zVals bVals l2 with
  | error e =>
    simp only [hout] at h
    exact Except.noConfusion h
  | ok out =>
    simp only [hout] at h
    cases hsel : dfSelect test_df (dfTranspose out.z).cols with
    | error e =>
      simp only [hsel] at h
      exact Except.noConfusion h
    | ok tdf =>
      simp only [hsel] at h
      injection h with h
      subst h
      rw [runPlierExternal_ok_z df priorGenes k zVals bVals l2 out hout]
      simp [dfShape, dfTranspose, plierColnames]

/-- C7 (amended): for the sklearn-backed variants the exposed weight
matrix has shape `(k, n_genes)` — rows are latent components, columns
are the genes of the input matrix — while for the pathway-regularized
variant the columns are only the GeneSubset genes: its shape is
`(k, |GeneSubset|)`, not `(k, n_genes)`. -/
theorem C7_weights_shape :
    (∀ (df : Df) (k : Nat) (emb comps : Mat) (res : SklearnFitRes),
        DataModel.pca df k emb comps = .ok res →
          dfShape res.weights = (k, df.cols.length))
    ∧ (∀ (df : Df) (k : Nat) (emb comps : Mat) (res : SklearnFitRes),
        DataModel.ica df k emb comps = .ok res →
          dfShape res.weights = (k, df.cols.length))
    ∧ (∀ (df : Df) (k : Nat) (emb comps : Mat) (res : SklearnFitRes),
        DataModel.nmf df k emb comps = .ok res →
          dfShape res.weights = (k, df.cols.length))
    ∧ (∀ (rr : Mat → Mat → ℝ → Mat) (df test_df : Df)
         (priorGenes : List String) (k : Nat)
         (zVals bVals : Nat → Nat → ℝ) (l2 : ℝ) (flag : Bool)
         (res : PlierRes),
        DataModel.plier rr df test_df priorGenes k zVals bVals l2 flag
            = .ok res →
          dfShape res.plier_weights
            = (k, (geneSubset df.cols priorGenes).length)) :=
  ⟨pcaWeightsShape, icaWeightsShape, nmfWeightsShape, plierWeightsShape⟩

/-- Concrete expression matrix with two genes, only one of which is
in the prior gene set. -/
def dfC7 : Df := ⟨["s1"], ["g1", "g2"], [[1, 2]]⟩

/-- Concrete test matrix matching `dfC7`. -/
def testC7 : Df := ⟨["t1"], ["g1", "g2"], [[3, 4]]⟩

/-- C7, counterexample: on a two-gene matrix whose prior gene set
covers only one gene, the successful pathway-regularized fit exposes
a weight matrix of shape `(1, 1)`, not `(k, n_genes) = (1, 2)` as the
claim requires. -/
theorem C7_counterexample :
    (DataModel.plier rr0 dfC7 testC7 ["g2"] 1 (fun _ _ => 0) (fun _ _ => 0) 0
        false).map (fun res => dfShape res.plier_weights)
      = Except.ok (1, 1)
    ∧ ((1, 1) : Nat × Nat) ≠ (1, dfC7.cols.length) :=
  ⟨by rfl, by decide⟩

/-- Successful concrete linear-subspace fit. -/
def resPcaW : SklearnFitRes :=
  (DataModel.pca dfC4 1 [[0]] [[0, 0]]).toOption.getD
    ⟨⟨[], [], []⟩, ⟨[], [], []⟩⟩

/-- Successful concrete independent-components fit. -/
def resIcaW : SklearnFitRes :=
  (DataModel.ica dfC4 1 [[0]] [[0, 0]]).toOption.getD
    ⟨⟨[], [], []⟩, ⟨[], [], []⟩⟩

/-- Successful concrete nonnegative-factorization fit. -/
def resNmfW : SklearnFitRes :=
  (DataModel.nmf dfC4 1 [[0]] [[0, 0]]).toOption.getD
    ⟨⟨[], [], []⟩, ⟨[], [], []⟩⟩

/-- Successful concrete pathway-regularized fit. -/
noncomputable def resPlierW : PlierRes :=
  (DataModel.plier rr0 dfC7 testC7 ["g2"] 1 (fun _ _ => 0) (fun _ _ => 0) 0
    false).toOption.getD ⟨⟨[], [], []⟩, ⟨[], [], []⟩, none⟩

/-- Witness for `C7_weights_shape` at concrete successful fits. -/
theorem C7_weights_shape_witness :
    dfShape resPcaW.weights = (1, dfC4.cols.length)
    ∧ dfShape resIcaW.weights = (1, dfC4.cols.length)
    ∧ dfShape resNmfW.weights = (1, dfC4.cols.length)
    ∧ dfShape resPlierW.plier_weights
        = (1, (geneSubset dfC7.cols ["g2"]).length) :=
  ⟨C7_weights_shape.1 dfC4 1 [[0]] [[0, 0]] resPcaW (by rfl),
   C7_weights_shape.2.1 dfC4 1 [[0]] [[0, 0]] resIcaW (by rfl),
   C7_weights_shape.2.2.1 dfC4 1 [[0]] [[0, 0]] resNmfW (by rfl),
   C7_weights_shape.2.2.2 rr0 dfC7 testC7 ["g2"] 1 (fun _ _ => 0)
     (fun _ _ => 0) 0 false resPlierW (by rfl)⟩

/-! ## Claim C8: out-of-sample projection of the
pathway-regularized variant -/

/-- A row-major matrix of exactly `p.1` rows, each of length `p.2`. -/
def matShape (m : Mat) (p : Nat × Nat) : Prop :=
  m.length = p.1 ∧ ∀ r ∈ m, r.length = p.2

theorem transposeM_len (m : Mat) : (transposeM m).length = ncolsM m := by
  simp [transposeM]

theorem transposeM_row_len (m : Mat) :
    ∀ r ∈ transposeM m, r.length = m.length := by
  intro r hr
  simp only [transposeM, List.mem_map] at hr
  obtain ⟨j, _, rfl⟩ := hr
  simp

theorem ncolsM_of_rows {m : Mat} {S : Nat} (hne : m.length ≠ 0)
    (hrect : ∀ r ∈ m, r.length = S) : ncolsM m = S := by
  cases m with
  | nil => simp at hne
  | cons a l => simpa [ncolsM] using hrect a (by simp)

theorem ncolsM_transposeM {m : Mat} {S : Nat}
    (hrect : ∀ r ∈ m, r.length = S) (hS : S ≠ 0) :
    ncolsM (transposeM m) = m.length := by
  cases m with
  | nil => simp [transposeM, ncolsM]
  | cons a l =>
    have hnc : ncolsM (a :: l) = S := by
      simpa [ncolsM] using hrect a (by simp)
    apply ncolsM_of_rows
    · rw [transposeM_len, hnc]
      exact hS
    · exact transposeM_row_len _

theorem runPlierExternal_ok_out (exprDf : Df) (priorGenes : List String)
    (k : Nat) (zVals bVals : Nat → Nat → ℝ) (l2 : ℝ) (out : PlierOut)
    (h : runPlierExternal exprDf priorGenes k zVals bVals l2 = .ok out) :
    out = ⟨⟨geneSubset exprDf.cols priorGenes, plierColnames k,
            (List.range (geneSubset exprDf.cols priorGenes).length).map
              (fun i => (List.range k).map (fun j => zVals i j))⟩,
           ⟨plierColnames k, exprDf.index,
            (List.range k).map (fun i =>
              (List.range exprDf.index.length).map (fun j => bVals i j))⟩,
           l2⟩ := by
  simp only [runPlierExternal] at h
  split at h
  · exact Except.noConfusion h
  · injection h with h
    exact h.symm

theorem runPlierExternal_ok_sub_ne (exprDf : Df) (priorGenes : List String)
    (k : Nat) (zVals bVals : Nat → Nat → ℝ) (l2 : ℝ) (out : PlierOut)
    (h : runPlierExternal exprDf priorGenes k zVals bVals l2 = .ok out) :
    (geneSubset exprDf.cols priorGenes).length ≠ 0 := by
  simp only [runPlierExternal] at h
  split at h
  · exact Except.noConfusion h
  · next hemp =>
    intro hlen
    exact hemp (by simpa [List.isEmpty_iff_length_eq_zero] using hlen)

theorem dfSelect_ok_eq {d : Df} {sel : List String} {df2 : Df}
    (h : dfSelect d sel = .ok df2) :
    df2 = ⟨d.index, sel,
           d.data.map (fun r =>
             sel.map (fun g => r.getD (d.cols.indexOf g) 0))⟩ := by
  unfold dfSelect at h
  split at h
  · injection h with h
    exact h.symm
  · exact Except.noConfusion h

/-- Stated from the spec (section 4.3), for the refinement claim C8:
restrict the test matrix to the GeneSubset, re-standardize it per
feature, then solve the ridge problem with the train-fitted weight
matrix `Z` (genes × k orientation, i.e. the transpose of the exposed
weights) and the regularization scalar returned by the fit; the ridge
machinery returns the transposed solution `B`, the
(n_test_samples × k) test embedding. -/
noncomputable def specTestEmbedding (rr : Mat → Mat → ℝ → Mat)
    (testDf : Df) (sub : List String) (Z : Mat) (lam : ℝ) : Mat :=
  let restricted : Df := ⟨testDf.index, sub,
    testDf.data.map (fun r =>
      sub.map (fun g => r.getD (testDf.cols.indexOf g) 0))⟩
  rr Z (transposeM (dfApplyZscore restricted).data) lam

theorem specTestEmbedding_shape (rr : Mat → Mat → ℝ → Mat)
    (testDf : Df) (sub : List String) (Z : Mat) (lam : ℝ)
    (hrr : ∀ A y l, matShape (rr A y l) (ncolsM y, ncolsM A))
    (hsub : sub.length ≠ 0) :
    matShape (specTestEmbedding rr testDf sub Z lam)
      (testDf.data.length, ncolsM Z) := by
  constructor
  · simp only [specTestEmbedding]
    rw [(hrr _ _ _).1]
    rw [ncolsM_transposeM (S := sub.length) ?hrect hsub]
    · simp [dfApplyZscore]
    case hrect =>
      intro r hr
      simp only [dfApplyZscore, List.mem_map] at hr
      obtain ⟨r0, hr0, rfl⟩ := hr
      obtain ⟨r1, _, rfl⟩ := hr0
      simp
  · intro r hr
    simp only [specTestEmbedding] at hr
    exact (hrr _ _ _).2 r hr

/-- C8 (confirmed): on a successful pathway-regularized fit with the
test-projection flag set, the stored test embedding is exactly the
ridge solution computed from the GeneSubset-restricted, per-feature
re-standardized test matrix, the train-fitted weight matrix and the
regularization scalar returned by the fit — no quantity refit on the
test data enters — and the transposed ridge solution has shape
(n_test_samples × k). -/
theorem C8_plier_test_embedding (rr : Mat → Mat → ℝ → Mat)
    (df test_df : Df) (priorGenes : List String) (k : Nat)
    (zVals bVals : Nat → Nat → ℝ) (l2 : ℝ) (res : PlierRes)
    (hrr : ∀ A y lam, matShape (rr A y lam) (ncolsM y, ncolsM A))
    (hk : k ≠ 0)
    (hwf : test_df.data.length = test_df.index.length)
    (h : DataModel.plier rr df test_df priorGenes k zVals bVals l2 true
          = .ok res) :
    res.plier_test_df
        = some (specTestEmbedding rr test_df (geneSubset df.cols priorGenes)
                  (transposeM res.plier_weights.data) l2)
    ∧ matShape (specTestEmbedding rr test_df (geneSubset df.cols priorGenes)
                  (transposeM res.plier_weights.data) l2)
        (test_df.index.length, k) := by
  simp only [DataModel.plier] at h
  cases hout : runPlierExternal df priorGenes k zVals bVals l2 with
  | error e =>
    simp only [hout] at h
    exact Except.noConfusion h
  | ok out =>
    have hSne := runPlierExternal_ok_sub_ne df priorGenes k zVals bVals l2
      out hout
    have houteq := runPlierExternal_ok_out df priorGenes k zVals bVals l2
      out hout
    subst houteq
    simp only [hout] at h
    cases hsel : dfSelect test_df
        (dfTranspose ⟨geneSubset df.cols priorGenes, plierColnames k,
          (List.range (geneSubset df.cols priorGenes).length).map
            (fun i => (List.range k).map (fun j => zVals i j))⟩).cols with
    | error e =>
      simp only [hsel] at h
      exact Except.noConfusion h
    | ok tdf =>
      have hseleq := dfSelect_ok_eq hsel
      subst hseleq
      simp only [hsel] at h
      injection h with h
      subst h
      -- shape facts about the weights block returned by the fit
      have hzrows : ∀ r ∈ (List.range
            (geneSubset df.cols priorGenes).length).map
            (fun i => (List.range k).map (fun j => zVals i j)),
          r.length = k := by
        intro r hr
        simp only [List.mem_map] at hr
        obtain ⟨i, _, rfl⟩ := hr
        simp
      have hzlen0 : ((List.range (geneSubset df.cols priorGenes).length).map
            (fun i => (List.range k).map (fun j => zVals i j))).length
          ≠ 0 := by
        simpa using hSne
      have hncz : ncolsM ((List.range
            (geneSubset df.cols priorGenes).length).map
            (fun i => (List.range k).map (fun j => zVals i j))) = k :=
        ncolsM_of_rows hzlen0 hzrows
      have hncZ : ncolsM (transposeM (transposeM ((List.range
            (geneSubset df.cols priorGenes).length).map
            (fun i => (List.range k).map (fun j => zVals i j))))) = k := by
        rw [ncolsM_transposeM (transposeM_row_len _) hzlen0,
            transposeM_len, hncz]
      have hshape := specTestEmbedding_shape rr test_df
        (geneSubset df.cols priorGenes)
        (transposeM (transposeM ((List.range
          (geneSubset df.cols priorGenes).length).map
          (fun i => (List.range k).map (fun j => zVals i j)))))
        l2 hrr hSne
      rw [hwf, hncZ] at hshape
      exact ⟨rfl, hshape⟩

/-- A stand-in for the external ridge solver used by the C8 witness:
a zero matrix of the contractual shape. -/
def rrShape : Mat → Mat → ℝ → Mat := fun A y _ =>
  (List.range (ncolsM y)).map (fun _ =>
    (List.range (ncolsM A)).map (fun _ => (0 : ℝ)))

theorem rrShape_contract :
    ∀ A y lam, matShape (rrShape A y lam) (ncolsM y, ncolsM A) := by
  intro A y lam
  constructor
  · simp [rrShape]
  · intro r hr
    simp only [rrShape, List.mem_map] at hr
    obtain ⟨j, _, rfl⟩ := hr
    simp

/-- Concrete one-gene expression matrix for the C8 witness. -/
def dfC8 : Df := ⟨["s1"], ["g1"], [[1]]⟩

/-- Concrete one-gene test matrix for the C8 witness. -/
def testC8 : Df := ⟨["t1"], ["g1"], [[2]]⟩

/-- The concrete pathway-regularized fit result of the C8 witness. -/
noncomputable def resC8W : PlierRes :=
  (DataModel.plier rrShape dfC8 testC8 ["g1"] 1 (fun _ _ => 0)
    (fun _ _ => 0) 0 true).toOption.getD ⟨⟨[], [], []⟩, ⟨[], [], []⟩, none⟩

/-- Witness for `C8_plier_test_embedding` at a concrete input. -/
theorem C8_plier_test_embedding_witness :
    resC8W.plier_test_df
        = some (specTestEmbedding rrShape testC8 (geneSubset dfC8.cols ["g1"])
                  (transposeM resC8W.plier_weights.data) 0)
    ∧ matShape (specTestEmbedding rrShape testC8 (geneSubset dfC8.cols ["g1"])
                  (transposeM resC8W.plier_weights.data) 0)
        (testC8.index.length, 1) :=
  C8_plier_test_embedding rrShape dfC8 testC8 ["g1"] 1 (fun _ _ => 0)
    (fun _ _ => 0) 0 resC8W rrShape_contract (by decide) (by rfl) (by rfl)

/-! ## The numpy legacy random generator

Modelled from numpy: `np.random.seed(s)` seeds the legacy Mersenne
Twister state with the Knuth initializer (`init_genrand`), and
`np.random.choice(np.arange(0, N), size=n)` — with its default
`replace=True` — draws `n` independent values by masked rejection
sampling: each candidate consumes one 32-bit output, is masked with
the smallest all-ones mask covering `N - 1`, and is rejected while it
exceeds `N - 1`.  The model reproduces the numpy bit stream exactly
(e.g. seed 42 yields first draws 121958, 671155, ... below 1000000). -/

def UINT32 : Nat := 4294967296

/-- Word `i` of a state list. -/
def wordAt (l : List Nat) (i : Nat) : Nat := l.getD i 0

def mtInitAux (prev : Nat) (i : Nat) : Nat → List Nat
  | 0 => []
  | fuel + 1 =>
    let x := (1812433253 * (Nat.xor prev (prev >>> 30)) + i) % UINT32
    x :: mtInitAux x (i + 1) fuel

/-- The initializer `init_genrand`: the 624-word Mersenne Twister state for a scalar
seed. -/
def mtInit (seed : Nat) : List Nat :=
  let s := seed % UINT32
  s :: mtInitAux s 1 623

/-- One regeneration (twist) of the 624-word state. -/
def twist (mt : List Nat) : List Nat :=
  (List.range 624).foldl (fun m i =>
    let y := ((wordAt m i) &&& 2147483648)
               + ((wordAt m ((i + 1) % 624)) &&& 2147483647)
    let v := Nat.xor (Nat.xor (wordAt m ((i + 397) % 624)) (y >>> 1))
               (if y % 2 = 1 then 2567483615 else 0)
    m.set i v) mt

/-- The Mersenne Twister tempering of one raw state word. -/
def temper (y0 : Nat) : Nat :=
  let y1 := Nat.xor y0 (y0 >>> 11)
  let y2 := Nat.xor y1 ((y1 <<< 7) &&& 2636928640)
  let y3 := Nat.xor y2 ((y2 <<< 15) &&& 4022730752)
  Nat.xor y3 (y3 >>> 18)

structure MTState where
  mt : List Nat
  idx : Nat

/-- Draw one 32-bit output, regenerating the state block when it is
exhausted. -/
def mtNext (s : MTState) : Nat × MTState :=
  if s.idx ≥ 624 then
    let m := twist s.mt
    (temper (wordAt m 0), ⟨m, 1⟩)
  else
    (temper (wordAt s.mt s.idx), ⟨s.mt, s.idx + 1⟩)

/-- The call `np.random.seed(seed)`: a fresh, not yet regenerated state. -/
def mtNew (seed : Nat) : MTState := ⟨mtInit seed, 624⟩

/-- The smallest all-ones bit mask covering `rng` (32-bit). -/
def smallestMask (rng : Nat) : Nat :=
  let m1 := rng ||| (rng >>> 1)
  let m2 := m1 ||| (m1 >>> 2)
  let m3 := m2 ||| (m2 >>> 4)
  let m4 := m3 ||| (m3 >>> 8)
  m4 ||| (m4 >>> 16)

/-- Masked rejection sampling of one value in `[0, rng]`; the fuel
bounds the rejection loop (a modelling artifact: the numpy loop is
unbounded, and no draw in this development rejects more than the
fuel allows). -/
def rkIntervalAux (mask rng : Nat) : Nat → MTState → Option (Nat × MTState)
  | 0, _ => none
  | fuel + 1, st =>
    let ws := mtNext st
    let v := ws.1 &&& mask
    if v ≤ rng then some (v, ws.2) else rkIntervalAux mask rng fuel ws.2

def npChoiceAux (rng : Nat) : Nat → MTState → Option (List Nat)
  | 0, _ => some []
  | n + 1, st =>
    match rkIntervalAux (smallestMask rng) rng 100 st with
    | none => none
    | some vs =>
      match npChoiceAux rng n vs.2 with
      | none => none
      | some rest => some (vs.1 :: rest)

/-- The call `np.random.seed(seed); np.random.choice(np.arange(0, popSize),
size=count)` with the default `replace=True`. -/
def npChoice (seed popSize count : Nat) : Option (List Nat) :=
  npChoiceAux (popSize - 1) count (mtNew seed)

/-! ## The ensemble driver (src/1.compress_given_z.py) -/

/-- Lines 82-83 of the driver:
`np.random.seed(cfg.default_seed)` followed by
`random_seeds = np.random.choice(np.arange(0, 1000000),
size=args.num_seeds)`.  The master seed (`cfg.default_seed`, 42 in
config.py) and the count are the only inputs. -/
def random_seeds (masterSeed count : Nat) : Option (List Nat) :=
  npChoice masterSeed 1000000 count

/-- Failures a per-seed, per-variant fit can raise (spec section 7). -/
inductive FitError
  | invalidRank
  | invalidInput
  | externalFitFailure
  deriving DecidableEq

/-- One row of the aggregate reconstruction table: algorithm, numeric
seed, shuffled flag and data split. -/
structure TableRow where
  alg : String
  seed : Nat
  shuffled : Bool
  data_type : String
  deriving DecidableEq

/-- One seed iteration of the per-seed loop: run every requested
algorithm in order.  The loop body has no exception handler, so the
first raised error aborts the iteration (and, through
`ensembleLoop`, the whole run). -/
def runSeedFits (fit : Nat → String → Except FitError Unit) (s : Nat)
    (algs : List String) : Except FitError Unit :=
  algs.foldlM (fun _ a => fit s a) ()

/-- The score rows one seed contributes to one data split: one cell
per fitted algorithm, tagged with the numeric seed and the shuffled
flag (`full_reconstruction.assign(seed=seed, shuffled=args.shuffle)`). -/
def seedRows (s : Nat) (algs : List String) (shuffle : Bool)
    (split : String) : List TableRow :=
  algs.map (fun a => ⟨a, s, shuffle, split⟩)

/-- The per-seed loop (lines 93-154): each iteration fits all
requested algorithms and appends its train and test score rows; an
uncaught exception anywhere terminates the loop (and the script)
before any aggregate output is written. -/
def ensembleLoop (fit : Nat → String → Except FitError Unit)
    (algs : List String) (shuffle : Bool) :
    List Nat → Except FitError (List TableRow × List TableRow)
  | [] => .ok ([], [])
  | s :: rest =>
    match runSeedFits fit s algs with
    | .error e => .error e
    | .ok _ =>
      match ensembleLoop fit algs shuffle rest with
      | .error e => .error e
      | .ok tail =>
        .ok (seedRows s algs shuffle ("training") ++ tail.1,
             seedRows s algs shuffle ("testing") ++ tail.2)

/-- The final aggregate (lines 157-160): the concatenated training
rows followed by the concatenated testing rows. -/
def finalTable (p : List TableRow × List TableRow) : List TableRow :=
  p.1 ++ p.2

/-- The whole run: draw the seeds from the master seed, then run the
per-seed loop.  `none` only when the rejection-sampling fuel of the
random model is exhausted (a modelling artifact, see
`rkIntervalAux`). -/
def ensembleRun (fit : Nat → String → Except FitError Unit)
    (algs : List String) (shuffle : Bool) (masterSeed count : Nat) :
    Option (Except FitError (List TableRow)) :=
  (random_seeds masterSeed count).map
    (fun seeds => (ensembleLoop fit algs shuffle seeds).map finalTable)

/-- The rows of a fully successful run for one split, in loop order. -/
def fullRows (seeds : List Nat) (algs : List String) (shuffle : Bool)
    (split : String) : List TableRow :=
  seeds.flatMap (fun s => seedRows s algs shuffle split)

/-! ## Claim C2: failure isolation in the ensemble driver -/

theorem runSeedFits_ok_of_all (fit : Nat → String → Except FitError Unit)
    (s : Nat) (algs : List String)
    (hall : ∀ a ∈ algs, fit s a = .ok ()) :
    runSeedFits fit s algs = .ok () := by
  induction algs with
  | nil => rfl
  | cons a rest ih =>
    unfold runSeedFits at ih ⊢
    rw [List.foldlM_cons, hall a (by simp)]
    exact ih (fun b hb => hall b (by simp [hb]))

theorem runSeedFits_all_of_ok (fit : Nat → String → Except FitError Unit)
    (s : Nat) (algs : List String) (u : Unit)
    (h : runSeedFits fit s algs = .ok u) :
    ∀ a ∈ algs, fit s a = .ok () := by
  induction algs with
  | nil => intro a ha; cases ha
  | cons a rest ih =>
    unfold runSeedFits at ih h
    rw [List.foldlM_cons] at h
    cases hfa : fit s a with
    | error e =>
      rw [hfa] at h
      exact Except.noConfusion h
    | ok v =>
      rw [hfa] at h
      intro b hb
      rcases List.mem_cons.mp hb with hba | hbr
      · subst hba
        rw [hfa]
      · exact ih h b hbr

theorem ensembleLoop_ok_of_all
    (fit : Nat → String → Except FitError Unit) (algs : List String)
    (shuffle : Bool) (seeds : List Nat)
    (hall : ∀ s ∈ seeds, ∀ a ∈ algs, fit s a = .ok ()) :
    ensembleLoop fit algs shuffle seeds
      = .ok (fullRows seeds algs shuffle ("training"),
             fullRows seeds algs shuffle ("testing")) := by
  induction seeds with
  | nil => rfl
  | cons s rest ih =>
    unfold ensembleLoop
    rw [runSeedFits_ok_of_all fit s algs (hall s (by simp)),
        ih (fun t ht a ha => hall t (by simp [ht]) a ha)]
    simp [fullRows]

theorem ensembleLoop_all_of_ok
    (fit : Nat → String → Except FitError Unit) (algs : List String)
    (shuffle : Bool) (seeds : List Nat)
    (p : List TableRow × List TableRow)
    (h : ensembleLoop fit algs shuffle seeds = .ok p) :
    ∀ s ∈ seeds, ∀ a ∈ algs, fit s a = .ok () := by
  induction seeds generalizing p with
  | nil => intro s hs; cases hs
  | cons s rest ih =>
    unfold ensembleLoop at h
    cases hfit : runSeedFits fit s algs with
    | error e =>
      rw [hfit] at h
      exact Except.noConfusion h
    | ok u =>
      rw [hfit] at h
      cases htail : ensembleLoop fit algs shuffle rest with
      | error e =>
        rw [htail] at h
        exact Except.noConfusion h
      | ok tail =>
        intro t ht a ha
        rcases List.mem_cons.mp ht with hts | htr
        · subst hts
          exact runSeedFits_all_of_ok fit t algs u hfit a ha
        · exact ih tail htail t htr a ha

/-- C2 (amended): per-seed, per-variant failures are NOT isolated.
The loop body has no exception handler, so: (i) only when every
variant of every seed succeeds does the run produce the aggregate
table, which then contains every seed/variant row; and (ii) whenever
the loop returns a table at all, every fit succeeded — equivalently,
any single failure aborts the entire run before the aggregate table
is written, losing the rows of every other seed and variant (the
failure surfaces only as the crash of the run itself). -/
theorem C2_failure_aborts_whole_run
    (fit : Nat → String → Except FitError Unit) (algs : List String)
    (shuffle : Bool) (seeds : List Nat) :
    ((∀ s ∈ seeds, ∀ a ∈ algs, fit s a = .ok ()) →
      ensembleLoop fit algs shuffle seeds
        = .ok (fullRows seeds algs shuffle ("training"),
               fullRows seeds algs shuffle ("testing")))
    ∧ (∀ p, ensembleLoop fit algs shuffle seeds = .ok p →
        ∀ s ∈ seeds, ∀ a ∈ algs, fit s a = .ok ()) :=
  ⟨ensembleLoop_ok_of_all fit algs shuffle seeds,
   fun p hp => ensembleLoop_all_of_ok fit algs shuffle seeds p hp⟩

/-- The always-succeeding fit used by driver witnesses. -/
def fitOkW : Nat → String → Except FitError Unit := fun _ _ => .ok ()

/-- Witness for `C2_failure_aborts_whole_run` at a concrete input. -/
theorem C2_failure_aborts_whole_run_witness :
    ensembleLoop fitOkW ["pca"] false [1, 2]
      = .ok (fullRows [1, 2] ["pca"] false ("training"),
             fullRows [1, 2] ["pca"] false ("testing"))
    ∧ fitOkW 1 ("pca") = .ok () :=
  ⟨(C2_failure_aborts_whole_run fitOkW ["pca"] false [1, 2]).1
      (fun s _ a _ => rfl),
   (C2_failure_aborts_whole_run fitOkW ["pca"] false [1, 2]).2
      (fullRows [1, 2] ["pca"] false ("training"),
       fullRows [1, 2] ["pca"] false ("testing"))
      ((C2_failure_aborts_whole_run fitOkW ["pca"] false [1, 2]).1
        (fun s _ a _ => rfl))
      1 (by simp) ("pca") (by simp)⟩

/-- A fit that fails only for the first drawn seed of master seed 42
on the linear-subspace variant. -/
def fitC2 : Nat → String → Except FitError Unit := fun s a =>
  if s = 121958 ∧ a = "pca" then .error .invalidRank else .ok ()

set_option maxRecDepth 1000000 in
/-- C2, counterexample: with master seed 42 and two drawn seeds
(121958 and 671155), a single failing variant (pca of seed 121958)
makes the whole run fail: no aggregate table is produced at all, even
though every fit of the other seed 671155 succeeds — its rows are
lost, contradicting the claim that the table still contains the rows
of every other seed and variant. -/
theorem C2_counterexample :
    ensembleRun fitC2 ["pca", "ica", "nmf", "plier"] false 42 2
      = some (.error .invalidRank)
    ∧ fitC2 671155 ("pca") = .ok () ∧ fitC2 671155 ("ica") = .ok ()
    ∧ fitC2 671155 ("nmf") = .ok () ∧ fitC2 671155 ("plier") = .ok () :=
  ⟨by rfl, by rfl, by rfl, by rfl, by rfl⟩

/-! ## Claim C3: the drawn seed sequence -/

/-- The `seed` column of a fully successful run: every drawn seed
repeated once per algorithm, first for the training split and then
for the testing split. -/
def seedColumnOf (seeds : List Nat) (algs : List String) : List Nat :=
  (seeds.flatMap (fun s => algs.map (fun _ => s)))
    ++ (seeds.flatMap (fun s => algs.map (fun _ => s)))

theorem fullRows_seed_column (seeds : List Nat) (algs : List String)
    (shuffle : Bool) (split : String) :
    (fullRows seeds algs shuffle split).map (fun r => r.seed)
      = seeds.flatMap (fun s => algs.map (fun _ => s)) := by
  induction seeds with
  | nil => rfl
  | cons s rest ih =>
    unfold fullRows at ih ⊢
    rw [List.flatMap_cons, List.flatMap_cons, List.map_append, ih]
    congr 1
    unfold seedRows
    rw [List.map_map]
    rfl

theorem ensembleLoop_ok_eq (fit : Nat → String → Except FitError Unit)
    (algs : List String) (shuffle : Bool) (seeds : List Nat)
    (p : List TableRow × List TableRow)
    (h : ensembleLoop fit algs shuffle seeds = .ok p) :
    p = (fullRows seeds algs shuffle ("training"),
         fullRows seeds algs shuffle ("testing")) := by
  have hall := ensembleLoop_all_of_ok fit algs shuffle seeds p h
  have h2 := ensembleLoop_ok_of_all fit algs shuffle seeds hall
  rw [h] at h2
  exact Except.ok.inj h2

/-- C3 (amended): the drawn seed sequence is a deterministic function
of the master seed and the count alone — in particular two runs with
the same master seed and count but the shuffle flag on vs off (and
even different fit outcomes per variant) carry identical `seed`
columns in their aggregate tables — but the seeds are drawn WITH
replacement (`np.random.choice` with its default `replace=True`), so
they need not be pairwise unique. -/
theorem C3_seed_column_deterministic (masterSeed count : Nat)
    (fitOn fitOff : Nat → String → Except FitError Unit)
    (algs : List String) (tOn tOff : List TableRow)
    (hOn : ensembleRun fitOn algs true masterSeed count = some (.ok tOn))
    (hOff : ensembleRun fitOff algs false masterSeed count
              = some (.ok tOff)) :
    tOn.map (fun r => r.seed) = tOff.map (fun r => r.seed)
    ∧ (random_seeds masterSeed count).map
          (fun seeds => seedColumnOf seeds algs)
        = some (tOn.map (fun r => r.seed)) := by
  cases hrs : random_seeds masterSeed count with
  | none =>
    unfold ensembleRun at hOn
    rw [hrs] at hOn
    exact Option.noConfusion hOn
  | some seeds =>
    unfold ensembleRun at hOn hOff
    rw [hrs] at hOn hOff
    simp only [Option.map] at hOn hOff
    injection hOn with hOn
    injection hOff with hOff
    cases hl1 : ensembleLoop fitOn algs true seeds with
    | error e =>
      rw [hl1] at hOn
      simp only [Except.map] at hOn
      exact Except.noConfusion hOn
    | ok p1 =>
      rw [hl1] at hOn
      simp only [Except.map] at hOn
      injection hOn with hOn
      cases hl2 : ensembleLoop fitOff algs false seeds with
      | error e =>
        rw [hl2] at hOff
        simp only [Except.map] at hOff
        exact Except.noConfusion hOff
      | ok p2 =>
        rw [hl2] at hOff
        simp only [Except.map] at hOff
        injection hOff with hOff
        subst hOn
        subst hOff
        rw [ensembleLoop_ok_eq fitOn algs true seeds p1 hl1,
            ensembleLoop_ok_eq fitOff algs false seeds p2 hl2]
        constructor
        · simp [finalTable, List.map_append, fullRows_seed_column]
        · simp [Option.map, finalTable, List.map_append,
                fullRows_seed_column, seedColumnOf]

/-- Table of the concrete shuffle-on witness run. -/
def tOnW : List TableRow :=
  match ensembleRun fitOkW ["pca"] true 42 1 with
  | some (Except.ok t) => t
  | _ => []

/-- Table of the concrete shuffle-off witness run. -/
def tOffW : List TableRow :=
  match ensembleRun fitOkW ["pca"] false 42 1 with
  | some (Except.ok t) => t
  | _ => []

set_option maxRecDepth 1000000 in
/-- Witness for `C3_seed_column_deterministic` at a concrete input. -/
theorem C3_seed_column_deterministic_witness :
    tOnW.map (fun r => r.seed) = tOffW.map (fun r => r.seed)
    ∧ (random_seeds 42 1).map (fun seeds => seedColumnOf seeds ["pca"])
        = some (tOnW.map (fun r => r.seed)) :=
  C3_seed_column_deterministic 42 1 fitOkW fitOkW ["pca"] tOnW tOffW
    (by rfl) (by rfl)

set_option maxRecDepth 1000000 in
/-- C3, counterexample: `np.random.choice` draws with replacement
(its `replace` parameter defaults to `True` and the source does not
set it), so the drawn seeds are not always pairwise unique: master
seed 259298 with count 2 draws the seed 732810 twice. -/
theorem C3_counterexample :
    random_seeds 259298 2 = some [732810, 732810]
    ∧ ¬ ([732810, 732810] : List Nat).Nodup :=
  ⟨by rfl, by decide⟩

/-! ## Claim C10: the gene-shuffled negative control
(`shuffle_train_genes`, src/1.compress_given_z.py, lines 16-27) -/

/-- The function `shuffle_train_genes(train_df)`: permute the genes of each sample
row independently (`df.apply(lambda x:
np.random.permutation(x.tolist()), axis=1)`, the per-row draws of the
numpy generator modelled by the argument `perm`, one reordering per
row position), then rebuild a dataframe from the permuted row lists.
Note the rebuild reads the module-level `rnaseq_train_df` for the
column labels and the row index, not the `train_df` argument; at the
only call site the argument IS that module-level dataframe. -/
def shuffle_train_genes (perm : Nat → List ℝ → List ℝ)
    (rnaseq_train_df train_df : Df) : Df :=
  ⟨rnaseq_train_df.index, rnaseq_train_df.cols,
   (train_df.data.enum).map (fun p => perm p.1 p.2)⟩

theorem perm_rows_enumFrom (perm : Nat → List ℝ → List ℝ)
    (hperm : ∀ i r, (perm i r).Perm r) (l : List (List ℝ)) (k0 : Nat) :
    List.Forall₂ (fun a b => a.Perm b)
      ((l.enumFrom k0).map (fun p => perm p.1 p.2)) l := by
  induction l generalizing k0 with
  | nil => exact List.Forall₂.nil
  | cons r rs ih => exact List.Forall₂.cons (hperm k0 r) (ih (k0 + 1))

/-- C10 (confirmed): under the call-site condition that the argument
is the module-level training dataframe, the gene-shuffled negative
control keeps the row index, the column labels and the shape of the
training matrix, and every row of the result is a permutation of the
corresponding input row (each sample keeps its multiset of values,
hence its total signal). -/
theorem C10_shuffle_preserves_rows (perm : Nat → List ℝ → List ℝ)
    (rnaseq_train_df train_df : Df)
    (hperm : ∀ i r, (perm i r).Perm r)
    (hglob : rnaseq_train_df = train_df) :
    (shuffle_train_genes perm rnaseq_train_df train_df).index
        = train_df.index
    ∧ (shuffle_train_genes perm rnaseq_train_df train_df).cols
        = train_df.cols
    ∧ dfShape (shuffle_train_genes perm rnaseq_train_df train_df)
        = dfShape train_df
    ∧ (shuffle_train_genes perm rnaseq_train_df train_df).data.length
        = train_df.data.length
    ∧ List.Forall₂ (fun a b => a.Perm b)
        (shuffle_train_genes perm rnaseq_train_df train_df).data
        train_df.data := by
  subst hglob
  refine ⟨rfl, rfl, rfl, ?_, ?_⟩
  · simp [shuffle_train_genes]
  · exact perm_rows_enumFrom perm hperm rnaseq_train_df.data 0

/-- The per-row reordering of the C10 witness: reversal. -/
def permW : Nat → List ℝ → List ℝ := fun _ r => r.reverse

/-- Concrete training matrix for the C10 witness. -/
def trainC10 : Df := ⟨["s1", "s2"], ["g1", "g2"], [[1, 2], [3, 4]]⟩

/-- Witness for `C10_shuffle_preserves_rows` at a concrete input. -/
theorem C10_shuffle_preserves_rows_witness :
    (shuffle_train_genes permW trainC10 trainC10).index = trainC10.index
    ∧ (shuffle_train_genes permW trainC10 trainC10).cols = trainC10.cols
    ∧ dfShape (shuffle_train_genes permW trainC10 trainC10)
        = dfShape trainC10
    ∧ (shuffle_train_genes permW trainC10 trainC10).data.length
        = trainC10.data.length
    ∧ List.Forall₂ (fun a b => a.Perm b)
        (shuffle_train_genes permW trainC10 trainC10).data trainC10.data :=
  C10_shuffle_preserves_rows permW trainC10 trainC10
    (fun _ r => r.reverse_perm) rfl
